import Mathlib

/-!
Verification of the fractex voxel-cell-to-mesh compiler
(src/source/game/terrain.h, terrain_vertex.h, world.h).

C++ floats are modelled as exact rationals (ℚ): every constant in the
source (0.5, 0.124, 0.876, ...) is an exact decimal literal, and the
claims are about the exact values those literals denote.  std::vector is
modelled as List, indexed writes as consecutive List.set operations, and
the parallel-for of the work queue as executing the per-cell writer once
per index in an arbitrary order (a permutation of the index range).
-/

namespace Fractex

/-- min::vec2<float>. -/
@[ext]
structure Vec2 where
  x : ℚ
  y : ℚ
deriving DecidableEq, Repr

/-- min::vec3<float>. -/
@[ext]
structure Vec3 where
  x : ℚ
  y : ℚ
  z : ℚ
deriving DecidableEq, Repr

/-- min::vec4<float>. -/
@[ext]
structure Vec4 where
  x : ℚ
  y : ℚ
  z : ℚ
  w : ℚ
deriving DecidableEq, Repr

def vec2_zero : Vec2 := ⟨0, 0⟩
def vec3_zero : Vec3 := ⟨0, 0, 0⟩
def vec4_zero : Vec4 := ⟨0, 0, 0, 0⟩

/-- C++ float-to-integer conversion (`static_cast<int8_t>`): truncation
toward zero.  The source only ever casts in-range atlas ids, so the
wrap-around of out-of-range casts (undefined behavior in C++) is never
exercised and is not modelled. -/
def ratTrunc (q : ℚ) : ℤ := if 0 ≤ q then ⌊q⌋ else ⌈q⌉

/-- min::mesh<float, uint32_t>: four parallel arrays. -/
@[ext]
structure Mesh where
  vertex : List Vec4
  uv : List Vec2
  normal : List Vec3
  index : List ℕ
deriving DecidableEq, Repr

/-- The empty mesh (a freshly constructed min::mesh). -/
def mesh_empty : Mesh := ⟨[], [], [], []⟩

/-- std::vector::resize(n): keep the first n elements, value-initialize
any growth.  The fill value is never observed by the compiler: every slot
is overwritten before being read (proved below), and a resize to 0 leaves
nothing to read. -/
def listResize {α : Type} (l : List α) (n : ℕ) (d : α) : List α :=
  if n ≤ l.length then l.take n else l ++ List.replicate (n - l.length) d

/-- A run of consecutive indexed writes `L[s] = v0; L[s+1] = v1; ...`
as performed by the `_parent.vertex[v++] = ...` sequences of set_cell. -/
def writeSeq {α : Type} : List α → ℕ → List α → List α
  | [], _, L => L
  | v :: vs, s, L => writeSeq vs (s + 1) (L.set s v)

/-- The 24 base corner UVs of terrain::create_uvs (values in {0,1}),
in source order. -/
def uv_base : List Vec2 :=
  [⟨1, 0⟩, ⟨0, 1⟩, ⟨0, 0⟩,
   ⟨1, 0⟩, ⟨0, 1⟩, ⟨0, 0⟩,
   ⟨1, 0⟩, ⟨0, 1⟩, ⟨0, 0⟩,
   ⟨1, 0⟩, ⟨0, 1⟩, ⟨0, 0⟩,
   ⟨0, 0⟩, ⟨1, 1⟩, ⟨0, 1⟩,
   ⟨1, 0⟩, ⟨0, 1⟩, ⟨0, 0⟩,
   ⟨1, 1⟩, ⟨1, 1⟩, ⟨1, 1⟩, ⟨1, 1⟩, ⟨1, 0⟩, ⟨1, 1⟩]

/-- The loop body of each case of the create_uvs switch:
`uv *= 0.124; uv.x(uv.x() + dx); uv.y(uv.y() + dy);` over all 24 UVs. -/
def atlas_apply (dx dy : ℚ) (uvs : List Vec2) : List Vec2 :=
  uvs.map (fun uv => ⟨uv.x * 0.124 + dx, uv.y * 0.124 + dy⟩)

/-- terrain::create_uvs: the 24 base corners, then a switch on the atlas
id selecting the per-case scale-and-offset; an id matching no case
(the switch has cases 0..15 and no default) leaves the UVs untouched. -/
def create_uvs (atlas_id : ℤ) : List Vec2 :=
  if atlas_id = 0 then atlas_apply 0.001 0.876 uv_base
  else if atlas_id = 1 then atlas_apply 0.126 0.876 uv_base
  else if atlas_id = 2 then atlas_apply 0.251 0.876 uv_base
  else if atlas_id = 3 then atlas_apply 0.376 0.876 uv_base
  else if atlas_id = 4 then atlas_apply 0.501 0.876 uv_base
  else if atlas_id = 5 then atlas_apply 0.626 0.876 uv_base
  else if atlas_id = 6 then atlas_apply 0.751 0.876 uv_base
  else if atlas_id = 7 then atlas_apply 0.876 0.876 uv_base
  else if atlas_id = 8 then atlas_apply 0.001 0.751 uv_base
  else if atlas_id = 9 then atlas_apply 0.126 0.751 uv_base
  else if atlas_id = 10 then atlas_apply 0.251 0.751 uv_base
  else if atlas_id = 11 then atlas_apply 0.376 0.751 uv_base
  else if atlas_id = 12 then atlas_apply 0.501 0.751 uv_base
  else if atlas_id = 13 then atlas_apply 0.626 0.751 uv_base
  else if atlas_id = 14 then atlas_apply 0.751 0.751 uv_base
  else if atlas_id = 15 then atlas_apply 0.876 0.751 uv_base
  else uv_base

/-- min::aabbox<float, min::vec3>. -/
@[ext]
structure aabbox where
  min : Vec3
  max : Vec3
deriving DecidableEq, Repr

/-- terrain::create_box: unit cube around the center,
min = center - (0.5,0.5,0.5), max = center + (0.5,0.5,0.5). -/
def create_box (center : Vec3) : aabbox :=
  { min := ⟨center.x - 0.5, center.y - 0.5, center.z - 0.5⟩
    max := ⟨center.x + 0.5, center.y + 0.5, center.z + 0.5⟩ }

/-- The 24 vertex writes of set_cell, in source order
(terrain.h lines 265-288), with homogeneous w = 1. -/
def box_vertices (b : aabbox) : List Vec4 :=
  [⟨b.min.x, b.min.y, b.min.z, 1⟩,
   ⟨b.max.x, b.min.y, b.max.z, 1⟩,
   ⟨b.min.x, b.min.y, b.max.z, 1⟩,
   ⟨b.max.x, b.max.y, b.max.z, 1⟩,
   ⟨b.min.x, b.max.y, b.min.z, 1⟩,
   ⟨b.min.x, b.max.y, b.max.z, 1⟩,
   ⟨b.min.x, b.max.y, b.max.z, 1⟩,
   ⟨b.min.x, b.min.y, b.min.z, 1⟩,
   ⟨b.min.x, b.min.y, b.max.z, 1⟩,
   ⟨b.min.x, b.max.y, b.min.z, 1⟩,
   ⟨b.max.x, b.min.y, b.min.z, 1⟩,
   ⟨b.min.x, b.min.y, b.min.z, 1⟩,
   ⟨b.max.x, b.min.y, b.min.z, 1⟩,
   ⟨b.max.x, b.max.y, b.max.z, 1⟩,
   ⟨b.max.x, b.min.y, b.max.z, 1⟩,
   ⟨b.min.x, b.min.y, b.max.z, 1⟩,
   ⟨b.max.x, b.max.y, b.max.z, 1⟩,
   ⟨b.min.x, b.max.y, b.max.z, 1⟩,
   ⟨b.max.x, b.min.y, b.min.z, 1⟩,
   ⟨b.max.x, b.max.y, b.min.z, 1⟩,
   ⟨b.min.x, b.max.y, b.min.z, 1⟩,
   ⟨b.max.x, b.max.y, b.min.z, 1⟩,
   ⟨b.max.x, b.max.y, b.min.z, 1⟩,
   ⟨b.max.x, b.min.y, b.max.z, 1⟩]

/-- The 24 normal writes of set_cell, in source order
(terrain.h lines 345-368). -/
def box_normals : List Vec3 :=
  [⟨0, -1, 0⟩, ⟨0, -1, 0⟩, ⟨0, -1, 0⟩,
   ⟨0, 1, 0⟩, ⟨0, 1, 0⟩, ⟨0, 1, 0⟩,
   ⟨-1, 0, 0⟩, ⟨-1, 0, 0⟩, ⟨-1, 0, 0⟩,
   ⟨0, 0, -1⟩, ⟨0, 0, -1⟩, ⟨0, 0, -1⟩,
   ⟨1, 0, 0⟩, ⟨1, 0, 0⟩, ⟨1, 0, 0⟩,
   ⟨0, 0, 1⟩, ⟨0, 0, 1⟩, ⟨0, 0, 1⟩,
   ⟨0, -1, 0⟩, ⟨0, 1, 0⟩, ⟨-1, 0, 0⟩,
   ⟨0, 0, -1⟩, ⟨1, 0, 0⟩, ⟨0, 0, 1⟩]

/-- The 36 index writes of set_cell relative to vertex_start, in source
order (terrain.h lines 304-339): the k-th write stores
`box_index_pattern[k] + vertex_start`. -/
def box_index_pattern : List ℕ :=
  [0, 1, 2, 3, 4, 5, 6, 7, 8, 9, 10, 11, 12, 13, 14, 15, 16, 17,
   0, 18, 1, 3, 19, 4, 6, 20, 7, 9, 21, 10, 12, 22, 13, 15, 23, 16]

/-- The 24 vertices set_cell derives from one packed cell: the corners of
the unit box around (x,y,z). -/
def cell_vertices (c : Vec4) : List Vec4 :=
  box_vertices (create_box ⟨c.x, c.y, c.z⟩)

/-- The 24 UVs set_cell derives from one packed cell: create_uvs applied
to `static_cast<int8_t>(unpack.w())`. -/
def cell_uvs (c : Vec4) : List Vec2 :=
  create_uvs (ratTrunc c.w)

/-- The 36 indices set_cell writes for cell ordinal `cell`
(each pattern entry plus vertex_start = 24 * cell). -/
def cell_indices (cell : ℕ) : List ℕ :=
  box_index_pattern.map (fun k => k + 24 * cell)

/-- terrain::set_cell: unpack cell `cell` from the cell buffer and write
its 24 vertices, 24 UVs, 36 indices and 24 normals into the parent mesh
at vertex_start = 24 * cell and index_start = 36 * cell. -/
def set_cell (cb : List Vec4) (parent : Mesh) (cell : ℕ) : Mesh :=
  { vertex := writeSeq (cell_vertices (cb.getD cell vec4_zero)) (24 * cell) parent.vertex
    uv := writeSeq (cell_uvs (cb.getD cell vec4_zero)) (24 * cell) parent.uv
    normal := writeSeq box_normals (24 * cell) parent.normal
    index := writeSeq (cell_indices cell) (36 * cell) parent.index }

/-- terrain::populate_cell_buffer: push every vertex of the child mesh
onto the cell buffer. -/
def populate_cell_buffer (cb : List Vec4) (child : Mesh) : List Vec4 :=
  child.vertex.foldl (fun acc v => acc ++ [v]) cb

/-- terrain::allocate_mesh_buffer: resize the parent arrays from the cell
buffer size to size*24 (vertex, uv, normal) and size*36 (index). -/
def allocate_mesh_buffer (parent : Mesh) (cb : List Vec4) : Mesh :=
  { vertex := listResize parent.vertex (cb.length * 24) vec4_zero
    uv := listResize parent.uv (cb.length * 24) vec2_zero
    normal := listResize parent.normal (cb.length * 24) vec3_zero
    index := listResize parent.index (cb.length * 36) 0 }

/-- The box-mode compile pipeline of upload_geometry/upload_preview after
the cell buffer is filled: allocate, then run set_cell for every cell
ordinal (reference sequential order; order-independence is proved). -/
def box_compile (cb : List Vec4) (parent0 : Mesh) : Mesh :=
  (List.range cb.length).foldl (set_cell cb) (allocate_mesh_buffer parent0 cb)

/-- The fully-written mesh a box compile produces: the per-cell 24/24/24/36
blocks laid out contiguously in cell order.  Proved equal to box_compile
(for every prior parent state and every execution order). -/
def compile_mesh (cb : List Vec4) : Mesh :=
  { vertex := ((List.range cb.length).map (fun i => cell_vertices (cb.getD i vec4_zero))).flatten
    uv := ((List.range cb.length).map (fun i => cell_uvs (cb.getD i vec4_zero))).flatten
    normal := ((List.range cb.length).map (fun _ => box_normals)).flatten
    index := ((List.range cb.length).map (fun i => cell_indices i)).flatten }

/-- terrain::generate_indices (point/GS mode): resize the index array to
the vertex count, then std::iota fills it with 0,1,2,...; the result of
iota over a vector depends only on its length, giving the range list. -/
def generate_indices (m : Mesh) : Mesh :=
  { m with index := List.range' 0 (listResize m.index m.vertex.length 0).length }

/-! ### GPU buffer and the dual-target store

The min::vertex_buffer class lives in the mgl library, outside src/, so
its behavior is modelled from the spec (sections 4.4, 4.5 and 7 of the
design): staging validates through the vertex template's check and fails
loudly before any GPU transfer; clear resets only the staged CPU data;
upload transfers staged data to the GPU buffer and skips the transfer
entirely when nothing is staged; draw_all draws the uploaded geometry and
drawing an empty buffer is a no-op. -/

/-- Modelled from the spec: min::vertex_buffer (not under src/) holds
staged CPU-side mesh data and the geometry last uploaded to the GPU. -/
structure VertexBuffer where
  data : List Mesh
  gpu : List Mesh
deriving DecidableEq, Repr

/-- Modelled from the spec: clear resets the staged CPU data; the GPU
buffer contents are replaced only by a later upload. -/
def VertexBuffer.clear (b : VertexBuffer) : VertexBuffer := { b with data := [] }

/-- game::terrain_vertex::check, box mode (terrain_vertex.h lines
121-129): throw when the uv or normal array length differs from the
vertex array length. -/
def terrain_vertex_check (m : Mesh) : Except String Unit :=
  if m.uv.length ≠ m.vertex.length ∨ m.normal.length ≠ m.vertex.length then
    Except.error "terrain_vertex: vertex, uv, or normals invalid length"
  else Except.ok ()

/-- Modelled from the spec: add_mesh validates the mesh through the
vertex template's check and stages it; a validation failure propagates as
an exception before the mesh is staged. -/
def VertexBuffer.add_mesh (b : VertexBuffer) (m : Mesh) : Except String VertexBuffer :=
  match terrain_vertex_check m with
  | Except.error e => Except.error e
  | Except.ok _ => Except.ok { b with data := b.data ++ [m] }

/-- Modelled from the spec: upload transfers the staged data to the GPU
buffer; with nothing staged no GPU transfer occurs. -/
def VertexBuffer.upload (b : VertexBuffer) : VertexBuffer :=
  if b.data = [] then b else { b with gpu := b.data }

/-- Modelled from the spec: draw_all issues a draw over every uploaded
element; the result counts the elements drawn, 0 meaning no-op. -/
def VertexBuffer.draw_all (b : VertexBuffer) : ℕ :=
  (b.gpu.map (fun m => m.index.length)).sum

/-- The terrain store state: the terrain (view) buffer _gb, the placemark
(preview) buffer _pb, and the shared box-mode scratch: the parent mesh
and the cell buffer. -/
structure TerrainState where
  gb : VertexBuffer
  pb : VertexBuffer
  parent : Mesh
  cell_buffer : List Vec4
deriving DecidableEq, Repr

/-- The add-then-upload tail shared by upload_geometry/upload_preview:
stage the compiled mesh (validating it) and upload; a validation error
aborts before the upload, leaving the buffer's GPU geometry untouched
(the cleared staging persists, as the C++ mutation does). -/
def add_and_upload (b : VertexBuffer) (m : Mesh) : Except String Unit × VertexBuffer :=
  match b.add_mesh m with
  | Except.error e => (Except.error e, b)
  | Except.ok b2 => (Except.ok (), b2.upload)

/-- terrain::upload_geometry, box mode (terrain.h lines 456-513), with
the chunk lookup already applied to the key list: clear the view buffer
and the cell buffer, concatenate every chunk's cells, allocate and
compile the parent mesh (reference sequential order; order-independence
is proved separately), add it to the view buffer when non-empty, then
bind and upload. -/
def upload_geometry (s : TerrainState) (chunks : List Mesh) :
    Except String Unit × TerrainState :=
  let gb := s.gb.clear
  let cb := chunks.foldl populate_cell_buffer []
  let parent := box_compile cb s.parent
  let s2 := { s with gb := gb, parent := parent, cell_buffer := cb }
  if 0 < parent.vertex.length then
    let r := add_and_upload gb parent
    (r.1, { s2 with gb := r.2 })
  else (Except.ok (), { s2 with gb := gb.upload })

/-- terrain::upload_preview, box mode (terrain.h lines 514-554): clear
the preview buffer and the cell buffer, take the cells of the given
terrain mesh, allocate and compile the parent mesh (serial loop), add it
to the preview buffer when non-empty, then bind and upload. -/
def upload_preview (s : TerrainState) (terrain_mesh : Mesh) :
    Except String Unit × TerrainState :=
  let pb := s.pb.clear
  let cb := populate_cell_buffer [] terrain_mesh
  let parent := box_compile cb s.parent
  let s2 := { s with pb := pb, parent := parent, cell_buffer := cb }
  if 0 < parent.vertex.length then
    let r := add_and_upload pb parent
    (r.1, { s2 with pb := r.2 })
  else (Except.ok (), { s2 with pb := pb.upload })

/-! ### The streaming trigger of world::update -/

/-- The observable actions of world::update's chunk-crossing branch. -/
inductive WEvent where
  | update_chunk : ℕ → WEvent
  | upload_view : WEvent
deriving DecidableEq, Repr

/-- world::update, chunk-boundary detection (world.h lines 518-547): the
current chunk key is computed from the player position by the cgrid
collaborator (not under src/, abstracted as the chunk_key_of argument
returning the key and the is_valid flag, exactly the signature of
cgrid::chunk_key); on a valid key differing from the recent chunk, the
recent chunk is updated and generate_terrain runs, which calls
upload_geometry exactly once (world.h lines 126-138).  Returns the new
recent chunk key and the trace of emitted actions. -/
def world_update_terrain (chunk_key_of : Vec3 → ℕ × Bool) (recent_chunk : ℕ)
    (p : Vec3) : ℕ × List WEvent :=
  let current_chunk := (chunk_key_of p).1
  let is_valid := (chunk_key_of p).2
  if is_valid = true ∧ recent_chunk ≠ current_chunk then
    (current_chunk, [WEvent.update_chunk current_chunk, WEvent.upload_view])
  else (recent_chunk, [])

/-! ### Per-face structure of the emitted box -/

/-- The vertex ordinals (within a cell's 24-vertex block) of face f:
the index pattern's two triangles for face f, (3f, 3f+1, 3f+2) and
(3f, 18+f, 3f+1), cover exactly these four vertices. -/
def face_verts (f : ℕ) : List ℕ := [3 * f, 3 * f + 1, 3 * f + 2, 18 + f]

/-- The normal written for face f (shared by its 4 vertices). -/
def face_normal (f : ℕ) : Vec3 := box_normals.getD (18 + f) vec3_zero

/-- The six canonical axis-aligned unit normals. -/
def canonical_normals : List Vec3 :=
  [⟨1, 0, 0⟩, ⟨-1, 0, 0⟩, ⟨0, 1, 0⟩, ⟨0, -1, 0⟩, ⟨0, 0, 1⟩, ⟨0, 0, -1⟩]

/-- The coordinate of v along the axis of the (axis-aligned) normal nv. -/
def axis_coord (nv : Vec3) (v : Vec4) : ℚ :=
  if nv.x ≠ 0 then v.x else if nv.y ≠ 0 then v.y else v.z

/-! ### Concrete example inputs used by witnesses -/

def exCells : List Vec4 := [vec4_zero]

def exPointMesh : Mesh := ⟨[vec4_zero, vec4_zero], [], [], []⟩

def badMesh : Mesh := ⟨[vec4_zero], [], [], []⟩

def exBuf : VertexBuffer := ⟨[], []⟩

def exState : TerrainState := ⟨⟨[], []⟩, ⟨[], []⟩, mesh_empty, []⟩

/-! ### Basic array-model lemmas -/

theorem listResize_length {α : Type} (l : List α) (n : ℕ) (d : α) :
    (listResize l n d).length = n := by
  unfold listResize
  split
  · simp [List.length_take]; omega
  · simp; omega

theorem writeSeq_length {α : Type} (vs : List α) :
    ∀ (s : ℕ) (L : List α), (writeSeq vs s L).length = L.length := by
  induction vs with
  | nil => intro s L; rfl
  | cons v vs ih =>
      intro s L
      simp only [writeSeq, ih, List.length_set]

/-- A run of consecutive in-bounds writes replaces the corresponding
slice of the target list. -/
theorem writeSeq_eq {α : Type} (vs : List α) :
    ∀ (s : ℕ) (L : List α), s + vs.length ≤ L.length →
      writeSeq vs s L = L.take s ++ vs ++ L.drop (s + vs.length) := by
  induction vs with
  | nil =>
      intro s L h
      simp only [writeSeq, List.length_nil, Nat.add_zero, List.nil_append,
        List.append_nil]
      exact (List.take_append_drop s L).symm
  | cons v vs ih =>
      intro s L h
      have hs : s < L.length := by simp at h; omega
      have hset : L.set s v = L.take s ++ v :: L.drop (s + 1) := by
        rw [List.set_eq_take_append_cons_drop, if_pos hs]
      have hlen : (s + 1) + vs.length ≤ (L.set s v).length := by
        simp [List.length_set]; simp at h; omega
      have htake : (L.take s).length = s := by
        simp [List.length_take]; omega
      simp only [writeSeq, ih (s + 1) (L.set s v) hlen]
      rw [hset]
      have h1 : (L.take s ++ v :: L.drop (s + 1)).take (s + 1)
          = L.take s ++ [v] := by
        have : s + 1 = (L.take s).length + 1 := by rw [htake]
        rw [this, List.take_append]
        simp
      have h2 : (L.take s ++ v :: L.drop (s + 1)).drop (s + 1 + vs.length)
          = L.drop (s + (vs.length + 1)) := by
        have hl : (L.take s ++ [v]).length = s + 1 := by simp [htake]
        have : L.take s ++ v :: L.drop (s + 1)
            = (L.take s ++ [v]) ++ L.drop (s + 1) := by simp
        rw [this]
        have harg : s + 1 + vs.length = (L.take s ++ [v]).length + vs.length := by
          rw [hl]
        rw [harg, List.drop_append, List.drop_drop]
        congr 1
        omega
      rw [h1, h2]
      simp

/-- Writes commute past a single disjoint set. -/
theorem writeSeq_set_comm {α : Type} (vs : List α) :
    ∀ (s k : ℕ) (v : α) (L : List α), k < s ∨ s + vs.length ≤ k →
      writeSeq vs s (L.set k v) = (writeSeq vs s L).set k v := by
  induction vs with
  | nil => intro s k v L _; rfl
  | cons x vs ih =>
      intro s k v L h
      have hks : k ≠ s := by simp at h; omega
      simp only [writeSeq]
      rw [List.set_comm v x L hks, ih (s + 1) k v (L.set s x) (by simp at h ⊢; omega)]

/-- Two runs of writes to disjoint index ranges commute. -/
theorem writeSeq_comm {α : Type} (vs1 : List α) :
    ∀ (vs2 : List α) (s1 s2 : ℕ) (L : List α),
      s1 + vs1.length ≤ s2 ∨ s2 + vs2.length ≤ s1 →
      writeSeq vs1 s1 (writeSeq vs2 s2 L) = writeSeq vs2 s2 (writeSeq vs1 s1 L) := by
  induction vs1 with
  | nil => intro vs2 s1 s2 L _; rfl
  | cons x vs1 ih =>
      intro vs2 s1 s2 L h
      have hset : writeSeq vs2 s2 (L.set s1 x) = (writeSeq vs2 s2 L).set s1 x := by
        apply writeSeq_set_comm
        simp at h; omega
      simp only [writeSeq]
      rw [← hset, ih vs2 (s1 + 1) s2 (L.set s1 x) (by simp at h ⊢; omega)]

/-- Flattening uniformly sized blocks multiplies the length. -/
theorem flatten_length_uniform {α : Type} (B : ℕ) :
    ∀ (ls : List (List α)), (∀ l ∈ ls, l.length = B) →
      ls.flatten.length = ls.length * B := by
  intro ls
  induction ls with
  | nil => intro _; simp
  | cons l ls ih =>
      intro h
      simp only [List.flatten_cons, List.length_append, List.length_cons]
      rw [ih (fun x hx => h x (List.mem_cons_of_mem l hx)), h l (List.mem_cons_self l ls)]
      ring

/-- Reading inside block i of a flattened list of uniformly sized blocks. -/
theorem flatten_blocks_getD {α : Type} (B : ℕ) (d : α) :
    ∀ (ls : List (List α)) (i j : ℕ), (∀ l ∈ ls, l.length = B) →
      i < ls.length → j < B →
      ls.flatten.getD (B * i + j) d = (ls.getD i []).getD j d := by
  intro ls
  induction ls with
  | nil => intro i j _ hi _; simp at hi
  | cons l ls ih =>
      intro i j h hi hj
      have hl : l.length = B := h l (List.mem_cons_self l ls)
      match i with
      | 0 =>
          simp only [Nat.mul_zero, Nat.zero_add, List.flatten_cons, List.getD_cons_zero]
          exact List.getD_append l ls.flatten d j (by omega)
      | i + 1 =>
          simp only [List.flatten_cons, List.getD_cons_succ]
          have harg : B * (i + 1) + j = l.length + (B * i + j) := by
            rw [hl, Nat.mul_succ]; ring
          rw [harg, List.getD_append_right l ls.flatten d _ (by omega)]
          have : l.length + (B * i + j) - l.length = B * i + j := by omega
          rw [this]
          exact ih i j (fun x hx => h x (List.mem_cons_of_mem l hx)) (by simpa using hi) hj

/-! ### The arena fold: disjoint per-cell block writes tile the arrays -/

/-- Folding per-index block writes over a contiguous index range replaces
exactly the covered slice with the concatenated blocks. -/
theorem foldl_writeSeq_blocks {α : Type} (B : ℕ) (wb : ℕ → List α)
    (hB : ∀ i, (wb i).length = B) :
    ∀ (n k : ℕ) (L : List α), B * k + B * n ≤ L.length →
      (List.range' k n).foldl (fun M i => writeSeq (wb i) (B * i) M) L
        = L.take (B * k) ++ ((List.range' k n).map wb).flatten ++ L.drop (B * k + B * n) := by
  intro n
  induction n with
  | zero =>
      intro k L _
      simp only [List.range', List.foldl_nil, List.map_nil, List.flatten_nil,
        List.append_nil, Nat.mul_zero, Nat.add_zero]
      exact (List.take_append_drop (B * k) L).symm
  | succ n ih =>
      intro k L h
      rw [List.range'_succ]
      simp only [List.foldl_cons, List.map_cons, List.flatten_cons]
      have h' : B * k + (B * n + B) ≤ L.length := by
        rw [Nat.mul_succ] at h; omega
      have hwb : writeSeq (wb k) (B * k) L
          = L.take (B * k) ++ wb k ++ L.drop (B * k + B) := by
        rw [writeSeq_eq (wb k) (B * k) L (by rw [hB]; omega), hB]
      have hlenT : (L.take (B * k)).length = B * k := by
        rw [List.length_take]
        exact min_eq_left (by omega)
      have hlen1 : (L.take (B * k) ++ wb k).length = B * k + B := by
        simp [hlenT, hB]
      have hih := ih (k + 1) (writeSeq (wb k) (B * k) L)
        (by rw [writeSeq_length, Nat.mul_succ]; omega)
      rw [hih]
      have htake : (writeSeq (wb k) (B * k) L).take (B * (k + 1))
          = L.take (B * k) ++ wb k := by
        rw [hwb, List.append_assoc]
        have harg : B * (k + 1) = (L.take (B * k)).length + B := by
          rw [hlenT, Nat.mul_succ]
        rw [harg, List.take_append]
        congr 1
        rw [← hB k]
        exact List.take_left _ _
      have hdrop : (writeSeq (wb k) (B * k) L).drop (B * (k + 1) + B * n)
          = L.drop (B * k + B * (n + 1)) := by
        rw [hwb]
        have hsplit : L.take (B * k) ++ wb k ++ L.drop (B * k + B)
            = (L.take (B * k) ++ wb k) ++ L.drop (B * k + B) := by simp
        rw [hsplit]
        have harg : B * (k + 1) + B * n = (L.take (B * k) ++ wb k).length + B * n := by
          rw [hlen1, Nat.mul_succ]
        rw [harg, List.drop_append, List.drop_drop]
        congr 1
        rw [Nat.mul_succ]
        ring
      rw [htake, hdrop]
      simp [List.append_assoc]

/-! ### Block sizes -/

theorem atlas_apply_length (dx dy : ℚ) (uvs : List Vec2) :
    (atlas_apply dx dy uvs).length = uvs.length := by
  simp [atlas_apply]

theorem uv_base_length : uv_base.length = 24 := rfl

/-- An atlas id outside the 16 switch cases leaves the base UVs
untouched. -/
theorem create_uvs_out (atlas_id : ℤ) (h : atlas_id < 0 ∨ 15 < atlas_id) :
    create_uvs atlas_id = uv_base := by
  unfold create_uvs
  rw [if_neg (show ¬atlas_id = 0 by omega), if_neg (show ¬atlas_id = 1 by omega),
    if_neg (show ¬atlas_id = 2 by omega), if_neg (show ¬atlas_id = 3 by omega),
    if_neg (show ¬atlas_id = 4 by omega), if_neg (show ¬atlas_id = 5 by omega),
    if_neg (show ¬atlas_id = 6 by omega), if_neg (show ¬atlas_id = 7 by omega),
    if_neg (show ¬atlas_id = 8 by omega), if_neg (show ¬atlas_id = 9 by omega),
    if_neg (show ¬atlas_id = 10 by omega), if_neg (show ¬atlas_id = 11 by omega),
    if_neg (show ¬atlas_id = 12 by omega), if_neg (show ¬atlas_id = 13 by omega),
    if_neg (show ¬atlas_id = 14 by omega), if_neg (show ¬atlas_id = 15 by omega)]

set_option maxHeartbeats 1000000 in
/-- In-range atlas ids select the offset of the 8-column grid:
x0 = 0.001 + 0.125 * column, y0 = 0.876 - 0.125 * row. -/
theorem create_uvs_in (atlas_id : ℤ) (h0 : 0 ≤ atlas_id) (h15 : atlas_id ≤ 15) :
    create_uvs atlas_id =
      atlas_apply (0.001 + 0.125 * ((atlas_id % 8 : ℤ) : ℚ))
        (0.876 - 0.125 * ((atlas_id / 8 : ℤ) : ℚ)) uv_base := by
  interval_cases atlas_id <;> norm_num [create_uvs, atlas_apply, uv_base]

theorem create_uvs_length (atlas_id : ℤ) : (create_uvs atlas_id).length = 24 := by
  by_cases h : 0 ≤ atlas_id ∧ atlas_id ≤ 15
  · rw [create_uvs_in atlas_id h.1 h.2, atlas_apply_length, uv_base_length]
  · rw [create_uvs_out atlas_id (by omega), uv_base_length]

theorem cell_vertices_length (c : Vec4) : (cell_vertices c).length = 24 := rfl

theorem cell_uvs_length (c : Vec4) : (cell_uvs c).length = 24 :=
  create_uvs_length _

theorem box_normals_length : box_normals.length = 24 := rfl

theorem cell_indices_length (cell : ℕ) : (cell_indices cell).length = 36 := by
  simp [cell_indices, box_index_pattern]

/-! ### The compile fold, field by field -/

/-- Folding set_cell over a list of ordinals acts independently on the
four arrays of the mesh. -/
theorem foldl_set_cell_split (cb : List Vec4) :
    ∀ (l : List ℕ) (M : Mesh),
      l.foldl (set_cell cb) M =
        { vertex := l.foldl (fun L i => writeSeq (cell_vertices (cb.getD i vec4_zero)) (24 * i) L) M.vertex
          uv := l.foldl (fun L i => writeSeq (cell_uvs (cb.getD i vec4_zero)) (24 * i) L) M.uv
          normal := l.foldl (fun L i => writeSeq box_normals (24 * i) L) M.normal
          index := l.foldl (fun L i => writeSeq (cell_indices i) (36 * i) L) M.index } := by
  intro l
  induction l with
  | nil => intro M; rfl
  | cons i l ih =>
      intro M
      simp only [List.foldl_cons]
      rw [ih (set_cell cb M i)]
      simp only [set_cell]

/-- The box compile fills every slot: for every prior parent state it
produces exactly the contiguous per-cell blocks. -/
theorem box_compile_eq (cb : List Vec4) (p0 : Mesh) :
    box_compile cb p0 = compile_mesh cb := by
  unfold box_compile compile_mesh
  rw [foldl_set_cell_split]
  have hr : List.range cb.length = List.range' 0 cb.length := List.range_eq_range' _
  simp only [allocate_mesh_buffer]
  congr 1
  · rw [hr, foldl_writeSeq_blocks 24 _ (fun i => cell_vertices_length _) cb.length 0 _
      (by rw [listResize_length]; omega)]
    rw [List.drop_eq_nil_of_le (by rw [listResize_length]; omega)]
    simp
  · rw [hr, foldl_writeSeq_blocks 24 _ (fun i => cell_uvs_length _) cb.length 0 _
      (by rw [listResize_length]; omega)]
    rw [List.drop_eq_nil_of_le (by rw [listResize_length]; omega)]
    simp
  · rw [hr, foldl_writeSeq_blocks 24 _ (fun _ => box_normals_length) cb.length 0 _
      (by rw [listResize_length]; omega)]
    rw [List.drop_eq_nil_of_le (by rw [listResize_length]; omega)]
    simp
  · rw [hr, foldl_writeSeq_blocks 36 _ (fun i => cell_indices_length _) cb.length 0 _
      (by rw [listResize_length]; omega)]
    rw [List.drop_eq_nil_of_le (by rw [listResize_length]; omega)]
    simp

/-! ### Commutativity of per-cell writers (race-free disjoint regions) -/

/-- Writing two different cells commutes: their vertex/uv/normal blocks
and their index blocks occupy disjoint array regions. -/
theorem set_cell_comm (cb : List Vec4) (z : Mesh) (i j : ℕ) :
    set_cell cb (set_cell cb z i) j = set_cell cb (set_cell cb z j) i := by
  by_cases hij : i = j
  · subst hij; rfl
  · have hv := writeSeq_comm (cell_vertices (cb.getD j vec4_zero))
      (cell_vertices (cb.getD i vec4_zero)) (24 * j) (24 * i) z.vertex
      (by rw [cell_vertices_length, cell_vertices_length]; omega)
    have hu := writeSeq_comm (cell_uvs (cb.getD j vec4_zero))
      (cell_uvs (cb.getD i vec4_zero)) (24 * j) (24 * i) z.uv
      (by rw [cell_uvs_length, cell_uvs_length]; omega)
    have hn := writeSeq_comm box_normals box_normals (24 * j) (24 * i) z.normal
      (by rw [box_normals_length]; omega)
    have hx := writeSeq_comm (cell_indices j) (cell_indices i) (36 * j) (36 * i) z.index
      (by rw [cell_indices_length, cell_indices_length]; omega)
    simp only [set_cell]
    congr 1

/-- Any execution order of the per-cell writers (any permutation of the
ordinal range) produces the sequential compile result. -/
theorem foldl_set_cell_perm (cb : List Vec4) (p0 : Mesh) (ord : List ℕ)
    (h : ord.Perm (List.range cb.length)) :
    ord.foldl (set_cell cb) (allocate_mesh_buffer p0 cb) = compile_mesh cb := by
  rw [List.Perm.foldl_eq' h
    (fun x _ y _ z => set_cell_comm cb z x y) (allocate_mesh_buffer p0 cb)]
  exact box_compile_eq cb p0


/-! ### Cell-buffer population and compiled-mesh reads -/

theorem populate_cell_buffer_eq (cb : List Vec4) (child : Mesh) :
    populate_cell_buffer cb child = cb ++ child.vertex := by
  have key : ∀ (l acc : List Vec4), l.foldl (fun a v => a ++ [v]) acc = acc ++ l := by
    intro l
    induction l with
    | nil => intro acc; simp
    | cons x xs ih => intro acc; simp [ih]
  exact key child.vertex cb

theorem foldl_populate_eq (chunks : List Mesh) :
    ∀ acc : List Vec4,
      chunks.foldl populate_cell_buffer acc
        = acc ++ (chunks.map (fun c => c.vertex)).flatten := by
  induction chunks with
  | nil => intro acc; simp
  | cons c cs ih =>
      intro acc
      simp only [List.foldl_cons, List.map_cons, List.flatten_cons]
      rw [populate_cell_buffer_eq, ih, List.append_assoc]

theorem compile_mesh_vertex_length (cb : List Vec4) :
    (compile_mesh cb).vertex.length = 24 * cb.length := by
  unfold compile_mesh
  rw [flatten_length_uniform 24 _
    (fun l hl => by rcases List.mem_map.mp hl with ⟨i, _, rfl⟩; exact cell_vertices_length _)]
  simp [Nat.mul_comm]

theorem compile_mesh_uv_length (cb : List Vec4) :
    (compile_mesh cb).uv.length = 24 * cb.length := by
  unfold compile_mesh
  rw [flatten_length_uniform 24 _
    (fun l hl => by rcases List.mem_map.mp hl with ⟨i, _, rfl⟩; exact cell_uvs_length _)]
  simp [Nat.mul_comm]

theorem compile_mesh_normal_length (cb : List Vec4) :
    (compile_mesh cb).normal.length = 24 * cb.length := by
  unfold compile_mesh
  rw [flatten_length_uniform 24 _
    (fun l hl => by rcases List.mem_map.mp hl with ⟨i, _, rfl⟩; exact box_normals_length)]
  simp [Nat.mul_comm]

theorem compile_mesh_index_length (cb : List Vec4) :
    (compile_mesh cb).index.length = 36 * cb.length := by
  unfold compile_mesh
  rw [flatten_length_uniform 36 _
    (fun l hl => by rcases List.mem_map.mp hl with ⟨i, _, rfl⟩; exact cell_indices_length _)]
  simp [Nat.mul_comm]

theorem compile_mesh_vertex_getD (cb : List Vec4) (i j : ℕ)
    (hi : i < cb.length) (hj : j < 24) :
    (compile_mesh cb).vertex.getD (24 * i + j) vec4_zero
      = (cell_vertices (cb.getD i vec4_zero)).getD j vec4_zero := by
  unfold compile_mesh
  rw [flatten_blocks_getD 24 vec4_zero _ i j
    (fun l hl => by rcases List.mem_map.mp hl with ⟨x, _, rfl⟩; exact cell_vertices_length _)
    (by simpa using hi) hj]
  congr 1
  rw [List.getD_eq_getElem _ _ (by simpa using hi), List.getElem_map, List.getElem_range]

theorem compile_mesh_normal_getD (cb : List Vec4) (i j : ℕ)
    (hi : i < cb.length) (hj : j < 24) :
    (compile_mesh cb).normal.getD (24 * i + j) vec3_zero
      = box_normals.getD j vec3_zero := by
  unfold compile_mesh
  rw [flatten_blocks_getD 24 vec3_zero _ i j
    (fun l hl => by rcases List.mem_map.mp hl with ⟨x, _, rfl⟩; exact box_normals_length)
    (by simpa using hi) hj]
  congr 1
  rw [List.getD_eq_getElem _ _ (by simpa using hi), List.getElem_map]

theorem compile_mesh_index_getD (cb : List Vec4) (i j : ℕ)
    (hi : i < cb.length) (hj : j < 36) :
    (compile_mesh cb).index.getD (36 * i + j) 0
      = (cell_indices i).getD j 0 := by
  unfold compile_mesh
  rw [flatten_blocks_getD 36 0 _ i j
    (fun l hl => by rcases List.mem_map.mp hl with ⟨x, _, rfl⟩; exact cell_indices_length _)
    (by simpa using hi) hj]
  congr 1
  rw [List.getD_eq_getElem _ _ (by simpa using hi), List.getElem_map, List.getElem_range]

theorem box_index_pattern_getD_lt (j : ℕ) (hj : j < 36) :
    box_index_pattern.getD j 0 < 24 := by
  revert j
  decide

theorem cell_indices_getD_bounds (i j : ℕ) (hj : j < 36) :
    24 * i ≤ (cell_indices i).getD j 0 ∧ (cell_indices i).getD j 0 < 24 * i + 24 := by
  have hjl : j < box_index_pattern.length := by
    have : box_index_pattern.length = 36 := rfl
    omega
  have hval : (cell_indices i).getD j 0 = box_index_pattern.getD j 0 + 24 * i := by
    unfold cell_indices
    rw [List.getD_eq_getElem _ _ (by simpa using hjl), List.getElem_map,
      List.getD_eq_getElem _ _ hjl]
  have hb := box_index_pattern_getD_lt j hj
  omega


set_option maxHeartbeats 2000000 in
/-- Every vertex of a cell block sits at position ± 0.5 per axis with
homogeneous w = 1. -/
theorem cell_vertices_coords (c : Vec4) (j : ℕ) (hj : j < 24) :
    ((cell_vertices c).getD j vec4_zero).w = 1 ∧
    (((cell_vertices c).getD j vec4_zero).x = c.x - 0.5 ∨
      ((cell_vertices c).getD j vec4_zero).x = c.x + 0.5) ∧
    (((cell_vertices c).getD j vec4_zero).y = c.y - 0.5 ∨
      ((cell_vertices c).getD j vec4_zero).y = c.y + 0.5) ∧
    (((cell_vertices c).getD j vec4_zero).z = c.z - 0.5 ∨
      ((cell_vertices c).getD j vec4_zero).z = c.z + 0.5) := by
  interval_cases j <;> simp [cell_vertices, box_vertices, create_box]

set_option maxHeartbeats 1000000 in
/-- Each face's normal is canonical and is written at all 4 of the
face's vertex slots. -/
theorem face_normal_canonical (f : ℕ) (hf : f < 6) :
    face_normal f ∈ canonical_normals ∧
    ∀ j ∈ face_verts f, box_normals.getD j vec3_zero = face_normal f := by
  interval_cases f <;>
    simp [face_normal, face_verts, canonical_normals, box_normals]

set_option maxHeartbeats 4000000 in
/-- The 4 vertices of each face agree on the coordinate along the
face normal's axis (coplanarity). -/
theorem cell_face_coplanar (c : Vec4) (f : ℕ) (hf : f < 6) :
    ∀ j1 ∈ face_verts f, ∀ j2 ∈ face_verts f,
      axis_coord (face_normal f) ((cell_vertices c).getD j1 vec4_zero) =
        axis_coord (face_normal f) ((cell_vertices c).getD j2 vec4_zero) := by
  interval_cases f <;>
    (intro j1 h1 j2 h2
     fin_cases h1 <;> fin_cases h2 <;>
       norm_num [face_normal, face_verts, axis_coord, cell_vertices, box_vertices,
         create_box, box_normals])


/-! ### The claims -/

/-- C1: for every CellBuffer of length N compiled in Box mode, the
compiled mesh has vertex.len = uv.len = normal.len = 24N and
index.len = 36N, every cell's 36 indices (written at positions
[36i, 36i+36)) lie in that cell's own 24-vertex block [24i, 24i+24),
and hence every index value is < 24N. -/
theorem claim1_box_mesh_layout (cb : List Vec4) (p0 : Mesh) :
    (box_compile cb p0).vertex.length = 24 * cb.length ∧
    (box_compile cb p0).uv.length = 24 * cb.length ∧
    (box_compile cb p0).normal.length = 24 * cb.length ∧
    (box_compile cb p0).index.length = 36 * cb.length ∧
    (∀ i j, i < cb.length → j < 36 →
      24 * i ≤ (box_compile cb p0).index.getD (36 * i + j) 0 ∧
        (box_compile cb p0).index.getD (36 * i + j) 0 < 24 * i + 24) ∧
    (∀ k, k < 36 * cb.length →
      (box_compile cb p0).index.getD k 0 < 24 * cb.length) := by
  rw [box_compile_eq]
  refine ⟨compile_mesh_vertex_length cb, compile_mesh_uv_length cb,
    compile_mesh_normal_length cb, compile_mesh_index_length cb, ?_, ?_⟩
  · intro i j hi hj
    rw [compile_mesh_index_getD cb i j hi hj]
    exact cell_indices_getD_bounds i j hj
  · intro k hk
    have hi : k / 36 < cb.length := by omega
    have hj : k % 36 < 36 := by omega
    have hk36 : 36 * (k / 36) + k % 36 = k := by omega
    have hb := cell_indices_getD_bounds (k / 36) (k % 36) hj
    rw [← hk36, compile_mesh_index_getD cb _ _ hi hj]
    omega

theorem claim1_box_mesh_layout_witness :
    (0 : ℕ) < 36 * exCells.length ∧
      (box_compile exCells mesh_empty).index.getD 0 0 < 24 * exCells.length :=
  ⟨by decide, (claim1_box_mesh_layout exCells mesh_empty).2.2.2.2.2 0 (by decide)⟩

/-- C3: for every material id in 0..15 the atlas offset applied to the
24 base corner UVs is exactly x0 = 0.001 + 0.125 * (id mod 8) and
y0 = 0.876 - 0.125 * (id / 8), the base corner values lying in {0, 1}
and being scaled by 0.124 before the offset is added. -/
theorem claim3_atlas_offsets (atlas_id : ℤ) (h0 : 0 ≤ atlas_id) (h15 : atlas_id ≤ 15) :
    create_uvs atlas_id
      = uv_base.map (fun uv =>
          ⟨uv.x * 0.124 + (0.001 + 0.125 * ((atlas_id % 8 : ℤ) : ℚ)),
            uv.y * 0.124 + (0.876 - 0.125 * ((atlas_id / 8 : ℤ) : ℚ))⟩) ∧
    ∀ uv ∈ uv_base, (uv.x = 0 ∨ uv.x = 1) ∧ (uv.y = 0 ∨ uv.y = 1) := by
  constructor
  · exact create_uvs_in atlas_id h0 h15
  · intro uv huv
    simp only [uv_base] at huv
    fin_cases huv <;> norm_num

theorem claim3_atlas_offsets_witness :
    (0 : ℤ) ≤ 9 ∧ (9 : ℤ) ≤ 15 ∧
      create_uvs 9
        = uv_base.map (fun uv =>
            ⟨uv.x * 0.124 + (0.001 + 0.125 * (((9 : ℤ) % 8 : ℤ) : ℚ)),
              uv.y * 0.124 + (0.876 - 0.125 * (((9 : ℤ) / 8 : ℤ) : ℚ))⟩) :=
  ⟨by decide, by decide, (claim3_atlas_offsets 9 (by decide) (by decide)).1⟩

/-- C4: for a fixed CellBuffer, compiling any number of times, from any
prior parent-array state and under any execution order of the per-cell
writers (any permutation of the ordinal range, covering every
worker-count and partitioning choice of the parallel-for), yields
bit-identical vertex, uv, normal and index arrays, because each cell's
output region depends only on that cell's data. -/
theorem claim4_compile_deterministic (cb : List Vec4) (p0 p1 : Mesh)
    (ord0 ord1 : List ℕ)
    (h0 : ord0.Perm (List.range cb.length)) (h1 : ord1.Perm (List.range cb.length)) :
    ord0.foldl (set_cell cb) (allocate_mesh_buffer p0 cb)
      = ord1.foldl (set_cell cb) (allocate_mesh_buffer p1 cb) := by
  rw [foldl_set_cell_perm cb p0 ord0 h0, foldl_set_cell_perm cb p1 ord1 h1]

theorem claim4_compile_deterministic_witness :
    ([1, 0] : List ℕ).Perm (List.range 2) ∧
      ([1, 0] : List ℕ).foldl (set_cell [vec4_zero, vec4_zero])
          (allocate_mesh_buffer mesh_empty [vec4_zero, vec4_zero])
        = ([0, 1] : List ℕ).foldl (set_cell [vec4_zero, vec4_zero])
            (allocate_mesh_buffer mesh_empty [vec4_zero, vec4_zero]) :=
  ⟨by decide,
    claim4_compile_deterministic [vec4_zero, vec4_zero] mesh_empty mesh_empty
      [1, 0] [0, 1] (by decide) (by decide)⟩

/-- C7: on a frame update, when the chunk key computed from the viewer's
position is valid and differs from the stored recent chunk key, the
recent key is updated to the current key and then upload_view runs
exactly once; when the computed key equals the recent key, no upload_view
runs and the recent key is unchanged. -/
theorem claim7_streaming_trigger (chunk_key_of : Vec3 → ℕ × Bool) (recent : ℕ)
    (p : Vec3) (hvalid : (chunk_key_of p).2 = true) :
    ((chunk_key_of p).1 ≠ recent →
      world_update_terrain chunk_key_of recent p
        = ((chunk_key_of p).1,
            [WEvent.update_chunk (chunk_key_of p).1, WEvent.upload_view])) ∧
    ((chunk_key_of p).1 = recent →
      world_update_terrain chunk_key_of recent p = (recent, [])) := by
  constructor
  · intro hne
    unfold world_update_terrain
    rw [if_pos ⟨hvalid, fun hc => hne hc.symm⟩]
  · intro heq
    unfold world_update_terrain
    rw [if_neg]
    intro hcond
    exact hcond.2 heq.symm

theorem claim7_streaming_trigger_witness :
    (world_update_terrain (fun _ => (5, true)) 3 ⟨0, 0, 0⟩
        = (5, [WEvent.update_chunk 5, WEvent.upload_view])) ∧
    world_update_terrain (fun _ => (5, true)) 5 ⟨0, 0, 0⟩ = (5, []) :=
  ⟨(claim7_streaming_trigger (fun _ => (5, true)) 3 ⟨0, 0, 0⟩ rfl).1 (by decide),
    (claim7_streaming_trigger (fun _ => (5, true)) 5 ⟨0, 0, 0⟩ rfl).2 rfl⟩

/-- C8: in Point (geometry-shader) mode, generate_indices leaves the N
cell vertices unchanged, produces an index array of length N with
index i = i (identity indexing), and emits no uv or normal data. -/
theorem claim8_point_mode_identity (m : Mesh) :
    (generate_indices m).vertex = m.vertex ∧
    (generate_indices m).vertex.length = m.vertex.length ∧
    (generate_indices m).index.length = m.vertex.length ∧
    (∀ i, i < m.vertex.length → (generate_indices m).index.getD i 0 = i) ∧
    (generate_indices m).uv = m.uv ∧
    (generate_indices m).normal = m.normal := by
  have hidx : (generate_indices m).index = List.range' 0 m.vertex.length := by
    simp [generate_indices, listResize_length]
  refine ⟨rfl, rfl, ?_, ?_, rfl, rfl⟩
  · rw [hidx, List.length_range']
  · intro i hi
    rw [hidx, List.getD_eq_getElem _ _ (by rw [List.length_range']; exact hi),
      List.getElem_range']
    omega

theorem claim8_point_mode_identity_witness :
    (1 : ℕ) < exPointMesh.vertex.length ∧
      (generate_indices exPointMesh).index.getD 1 0 = 1 :=
  ⟨by decide, (claim8_point_mode_identity exPointMesh).2.2.2.1 1 (by decide)⟩

/-- C10: for any atlas id outside [0, 15] no case of the atlas switch
applies and create_uvs returns the 24 base corner UVs unchanged (no
0.124 scale and no offset), rather than erroring, clamping or
wrapping. -/
theorem claim10_out_of_range_id (atlas_id : ℤ) (h : atlas_id < 0 ∨ 15 < atlas_id) :
    create_uvs atlas_id = uv_base :=
  create_uvs_out atlas_id h

theorem claim10_out_of_range_id_witness :
    ((15 : ℤ) < 16 ∧ (-3 : ℤ) < 0) ∧
      create_uvs 16 = uv_base ∧ create_uvs (-3) = uv_base :=
  ⟨⟨by decide, by decide⟩, claim10_out_of_range_id 16 (Or.inr (by decide)),
    claim10_out_of_range_id (-3) (Or.inl (by decide))⟩

/-- C2: every cell's box-mode block is a unit cube centered on the cell
position: each of the 24 vertices has coordinates position ± 0.5 per axis
with homogeneous w = 1, and each of the 6 quads has a normal that is one
of the six canonical axis-aligned unit vectors, shared by its 4 vertices,
which agree on the coordinate along the normal's axis (coplanarity). -/
theorem claim2_box_geometry (cb : List Vec4) (p0 : Mesh) (i : ℕ) (hi : i < cb.length) :
    (∀ j, j < 24 →
      ((box_compile cb p0).vertex.getD (24 * i + j) vec4_zero).w = 1 ∧
      (((box_compile cb p0).vertex.getD (24 * i + j) vec4_zero).x
          = (cb.getD i vec4_zero).x - 0.5 ∨
        ((box_compile cb p0).vertex.getD (24 * i + j) vec4_zero).x
          = (cb.getD i vec4_zero).x + 0.5) ∧
      (((box_compile cb p0).vertex.getD (24 * i + j) vec4_zero).y
          = (cb.getD i vec4_zero).y - 0.5 ∨
        ((box_compile cb p0).vertex.getD (24 * i + j) vec4_zero).y
          = (cb.getD i vec4_zero).y + 0.5) ∧
      (((box_compile cb p0).vertex.getD (24 * i + j) vec4_zero).z
          = (cb.getD i vec4_zero).z - 0.5 ∨
        ((box_compile cb p0).vertex.getD (24 * i + j) vec4_zero).z
          = (cb.getD i vec4_zero).z + 0.5)) ∧
    (∀ f, f < 6 →
      face_normal f ∈ canonical_normals ∧
      (∀ j ∈ face_verts f,
        (box_compile cb p0).normal.getD (24 * i + j) vec3_zero = face_normal f) ∧
      (∀ j1 ∈ face_verts f, ∀ j2 ∈ face_verts f,
        axis_coord (face_normal f)
            ((box_compile cb p0).vertex.getD (24 * i + j1) vec4_zero)
          = axis_coord (face_normal f)
              ((box_compile cb p0).vertex.getD (24 * i + j2) vec4_zero))) := by
  rw [box_compile_eq]
  constructor
  · intro j hj
    rw [compile_mesh_vertex_getD cb i j hi hj]
    exact cell_vertices_coords (cb.getD i vec4_zero) j hj
  · intro f hf
    have hfv : ∀ j ∈ face_verts f, j < 24 := by
      intro j hj
      simp [face_verts] at hj
      rcases hj with h | h | h | h <;> omega
    refine ⟨(face_normal_canonical f hf).1, ?_, ?_⟩
    · intro j hj
      rw [compile_mesh_normal_getD cb i j hi (hfv j hj)]
      exact (face_normal_canonical f hf).2 j hj
    · intro j1 h1 j2 h2
      rw [compile_mesh_vertex_getD cb i j1 hi (hfv j1 h1),
        compile_mesh_vertex_getD cb i j2 hi (hfv j2 h2)]
      exact cell_face_coplanar (cb.getD i vec4_zero) f hf j1 h1 j2 h2

theorem claim2_box_geometry_witness :
    (0 : ℕ) < exCells.length ∧
      ((box_compile exCells mesh_empty).vertex.getD (24 * 0 + 0) vec4_zero).w = 1 :=
  ⟨by decide, ((claim2_box_geometry exCells mesh_empty 0 (by decide)).1 0 (by decide)).1⟩

/-- C5: staging a box-mode mesh whose uv or normal array length differs
from the vertex array length raises the validation error before any GPU
upload; the upload is aborted and the buffer's previously uploaded
geometry stays bound and drawable (unchanged GPU contents and draw
behavior). -/
theorem claim5_validation_aborts (b : VertexBuffer) (m : Mesh)
    (hmm : m.uv.length ≠ m.vertex.length ∨ m.normal.length ≠ m.vertex.length) :
    (add_and_upload b m).1
        = Except.error "terrain_vertex: vertex, uv, or normals invalid length" ∧
    (add_and_upload b m).2.gpu = b.gpu ∧
    (add_and_upload b m).2.draw_all = b.draw_all := by
  have hchk : terrain_vertex_check m
      = Except.error "terrain_vertex: vertex, uv, or normals invalid length" := by
    unfold terrain_vertex_check
    rw [if_pos hmm]
  simp [add_and_upload, VertexBuffer.add_mesh, hchk]

theorem claim5_validation_aborts_witness :
    badMesh.uv.length ≠ badMesh.vertex.length ∧
      (add_and_upload exBuf badMesh).1
        = Except.error "terrain_vertex: vertex, uv, or normals invalid length" :=
  ⟨by decide, (claim5_validation_aborts exBuf badMesh (Or.inl (by decide))).1⟩

/-- A compiled box mesh always passes the vertex-length validation:
its vertex, uv and normal arrays have the same length. -/
theorem check_compile_ok (cb : List Vec4) :
    terrain_vertex_check (compile_mesh cb) = Except.ok () := by
  unfold terrain_vertex_check
  rw [if_neg]
  simp [compile_mesh_uv_length, compile_mesh_vertex_length, compile_mesh_normal_length]

/-- C6: with a zero concatenated cell count (every listed chunk empty,
or an empty preview cell list), upload_view and upload_preview skip
compilation (empty cell buffer and parent) and GPU upload (nothing
staged, GPU contents unchanged), raise no exception, and a subsequent
draw of a never-uploaded target is a no-op (draws zero elements). -/
theorem claim6_zero_cells_skip (s : TerrainState) (chunks : List Mesh) (t : Mesh)
    (hc : ∀ c ∈ chunks, c.vertex = []) (ht : t.vertex = []) :
    (upload_geometry s chunks).1 = Except.ok () ∧
    (upload_geometry s chunks).2.cell_buffer = [] ∧
    (upload_geometry s chunks).2.parent.vertex = [] ∧
    (upload_geometry s chunks).2.gb.data = [] ∧
    (upload_geometry s chunks).2.gb.gpu = s.gb.gpu ∧
    (s.gb.gpu = [] → (upload_geometry s chunks).2.gb.draw_all = 0) ∧
    (upload_preview s t).1 = Except.ok () ∧
    (upload_preview s t).2.pb.data = [] ∧
    (upload_preview s t).2.pb.gpu = s.pb.gpu ∧
    (s.pb.gpu = [] → (upload_preview s t).2.pb.draw_all = 0) := by
  have hcb : chunks.foldl populate_cell_buffer [] = [] := by
    rw [foldl_populate_eq chunks []]
    simp only [List.nil_append]
    rw [List.flatten_eq_nil_iff]
    intro l hl
    rcases List.mem_map.mp hl with ⟨c, hcm, rfl⟩
    exact hc c hcm
  have hcbp : populate_cell_buffer [] t = [] := by
    rw [populate_cell_buffer_eq]
    simp [ht]
  have hcm0 : compile_mesh ([] : List Vec4) = mesh_empty := by
    simp [compile_mesh, mesh_empty]
  have hg : upload_geometry s chunks
      = (Except.ok (),
          { s with gb := ⟨[], s.gb.gpu⟩, parent := mesh_empty, cell_buffer := [] }) := by
    simp [upload_geometry, hcb, box_compile_eq, hcm0, mesh_empty,
      VertexBuffer.clear, VertexBuffer.upload]
  have hp : upload_preview s t
      = (Except.ok (),
          { s with pb := ⟨[], s.pb.gpu⟩, parent := mesh_empty, cell_buffer := [] }) := by
    simp [upload_preview, hcbp, box_compile_eq, hcm0, mesh_empty,
      VertexBuffer.clear, VertexBuffer.upload]
  rw [hg, hp]
  refine ⟨rfl, rfl, rfl, rfl, rfl, ?_, rfl, rfl, rfl, ?_⟩
  · intro h0
    simp [VertexBuffer.draw_all, h0]
  · intro h0
    simp [VertexBuffer.draw_all, h0]

theorem claim6_zero_cells_skip_witness :
    (upload_geometry exState []).1 = Except.ok () ∧
      (upload_preview exState mesh_empty).1 = Except.ok () :=
  ⟨(claim6_zero_cells_skip exState [] mesh_empty (by simp) rfl).1,
    (claim6_zero_cells_skip exState [] mesh_empty (by simp) rfl).2.2.2.2.2.2.1⟩

/-- C9: the View and Preview targets are never aliased: upload_preview
leaves the View buffer (staged data and GPU contents) unchanged and
upload_geometry leaves the Preview buffer unchanged; and each
recompilation fully replaces the target's contents — the resulting
buffer is a function of the input cells alone (a single freshly compiled
mesh, staged and uploaded), with no dependence on the target's previous
contents. -/
theorem claim9_target_isolation (s : TerrainState) (chunks : List Mesh) (t : Mesh) :
    (upload_preview s t).2.gb = s.gb ∧
    (upload_geometry s chunks).2.pb = s.pb ∧
    (t.vertex ≠ [] →
      (upload_preview s t).2.pb
        = ⟨[compile_mesh t.vertex], [compile_mesh t.vertex]⟩) ∧
    (t.vertex = [] → (upload_preview s t).2.pb = ⟨[], s.pb.gpu⟩) ∧
    (chunks.foldl populate_cell_buffer [] ≠ [] →
      (upload_geometry s chunks).2.gb
        = ⟨[compile_mesh (chunks.foldl populate_cell_buffer [])],
            [compile_mesh (chunks.foldl populate_cell_buffer [])]⟩) := by
  have hcbp : populate_cell_buffer [] t = t.vertex := by
    rw [populate_cell_buffer_eq]
    simp
  refine ⟨?_, ?_, ?_, ?_, ?_⟩
  · simp only [upload_preview]
    split <;> rfl
  · simp only [upload_geometry]
    split <;> rfl
  · intro hne
    have hlp : 0 < t.vertex.length := List.length_pos.mpr hne
    have h24 : 0 < 24 * t.vertex.length := by omega
    simp [upload_preview, hcbp, box_compile_eq, compile_mesh_vertex_length, h24,
      add_and_upload, VertexBuffer.add_mesh, check_compile_ok,
      VertexBuffer.clear, VertexBuffer.upload]
  · intro hnil
    have hz : (compile_mesh t.vertex).vertex.length = 0 := by
      rw [compile_mesh_vertex_length, hnil]
      simp
    simp [upload_preview, hcbp, box_compile_eq, hz,
      VertexBuffer.clear, VertexBuffer.upload]
  · intro hne
    have hlp : 0 < (chunks.foldl populate_cell_buffer []).length :=
      List.length_pos.mpr hne
    have h24 : 0 < 24 * (chunks.foldl populate_cell_buffer []).length := by omega
    simp [upload_geometry, box_compile_eq, compile_mesh_vertex_length, h24,
      add_and_upload, VertexBuffer.add_mesh, check_compile_ok,
      VertexBuffer.clear, VertexBuffer.upload]

theorem claim9_target_isolation_witness :
    exPointMesh.vertex ≠ [] ∧
      (upload_preview exState exPointMesh).2.gb = exState.gb ∧
      (upload_preview exState exPointMesh).2.pb
        = ⟨[compile_mesh exPointMesh.vertex], [compile_mesh exPointMesh.vertex]⟩ :=
  ⟨by decide,
    (claim9_target_isolation exState [] exPointMesh).1,
    (claim9_target_isolation exState [] exPointMesh).2.2.1 (by decide)⟩

end Fractex
